import Mathlib

/-!
Verification of the watcher workflow orchestration engine.

The development embeds the engine shallowly:
* `src/types/workflow.ts` — step table, prerequisite checker (`canExecuteStep`);
* the workflow store and lifecycle operations of the workflow service
  (`createWorkflow`, `updateWorkflow`, `updateStepStatus`, `startWorkflow`,
  `pauseWorkflow`, `completeWorkflow`, `failWorkflow`, `logWorkflowProgress`);
* the HTTP route handlers for create / execute-step / get-step-status /
  start / pause, modelled as functions over an explicit store state.

External collaborators (download, transcription, LLM calls, capture) are
black boxes; a step execution takes the collaborator's outcome as an
argument (`Except String String`: failure message or produced output blob).
Timestamps are drawn from a logical clock carried in the store state, so
"now" values are distinct across successive draws.  A `readCount` field
instruments the store: it counts workflow-record loads (`getWorkflow`),
mirroring which handlers read the store before rejecting a request.
-/

namespace Watcher

/-- Per-step lifecycle status (`StepStatus` in workflow.ts). -/
inductive StepStatus where
  | pending
  | in_progress
  | completed
  | error
  | skipped
deriving DecidableEq, Repr

/-- Whole-workflow status (`WorkflowStatus` in workflow.ts). -/
inductive WorkflowStatus where
  | created
  | in_progress
  | paused
  | completed
  | error
deriving DecidableEq, Repr

/-- The step-status map: a record with exactly the keys "1".."7"
(`StepStatuses` in workflow.ts). -/
structure StepStatuses where
  s1 : StepStatus
  s2 : StepStatus
  s3 : StepStatus
  s4 : StepStatus
  s5 : StepStatus
  s6 : StepStatus
  s7 : StepStatus
deriving DecidableEq, Repr

/-- Index the status record by step number, `stepStatuses[String(n)]`.
An out-of-range index in TS yields `undefined`, which compares unequal to
`completed`; `pending` plays that role here (no modelled code path reads an
out-of-range status). -/
def StepStatuses.get (ss : StepStatuses) (n : Nat) : StepStatus :=
  if n = 1 then ss.s1
  else if n = 2 then ss.s2
  else if n = 3 then ss.s3
  else if n = 4 then ss.s4
  else if n = 5 then ss.s5
  else if n = 6 then ss.s6
  else if n = 7 then ss.s7
  else StepStatus.pending

/-- Write one entry of the status record,
`newStepStatuses[String(step)] = status`: the key equal to `n` (if any)
gets the new value, every other key keeps its value.  An out-of-range index
writes nothing (the TS call sites guarantee 1..7). -/
def StepStatuses.set (ss : StepStatuses) (n : Nat) (v : StepStatus) : StepStatuses :=
  { s1 := if n = 1 then v else ss.s1
    s2 := if n = 2 then v else ss.s2
    s3 := if n = 3 then v else ss.s3
    s4 := if n = 4 then v else ss.s4
    s5 := if n = 5 then v else ss.s5
    s6 := if n = 6 then v else ss.s6
    s7 := if n = 7 then v else ss.s7 }

/-- `s === 'completed' || s === 'skipped'`, the predicate of the
all-steps-complete check in the execute route. -/
def StepStatus.isDone : StepStatus → Bool
  | StepStatus.completed => true
  | StepStatus.skipped => true
  | _ => false

/-- `Object.values(workflow.stepStatuses).every(s => s === 'completed' || s === 'skipped')`. -/
def StepStatuses.allDone (ss : StepStatuses) : Bool :=
  ss.s1.isDone && ss.s2.isDone && ss.s3.isDone && ss.s4.isDone &&
    ss.s5.isDone && ss.s6.isDone && ss.s7.isDone

/-- The persisted workflow record (`Workflow` in workflow.ts).  Step output
payloads are shape-opaque blobs here (`Option String`); only their
presence/absence and identity matter to the engine.  Timestamps are logical
clock values. -/
structure Workflow where
  id : String
  videoSource : String
  videoPath : Option String
  videoName : Option String
  videoId : Option String
  status : WorkflowStatus
  currentStep : Nat
  errorMessage : Option String
  stepStatuses : StepStatuses
  step1Output : Option String
  step2Output : Option String
  step3Output : Option String
  step4Output : Option String
  step5Output : Option String
  step6Output : Option String
  step7Output : Option String
  config : Option String
  enhancePromptId : Option String
  blogPromptId : Option String
  socialPromptId : Option String
  createdAt : Nat
  updatedAt : Nat
  startedAt : Option Nat
  completedAt : Option Nat
deriving DecidableEq, Repr

/-- Index the output slots by step number (the `outputMap` of
`getStepStatus`, and `step${step}Output` in the execute route). -/
def Workflow.outputGet (w : Workflow) (n : Nat) : Option String :=
  if n = 1 then w.step1Output
  else if n = 2 then w.step2Output
  else if n = 3 then w.step3Output
  else if n = 4 then w.step4Output
  else if n = 5 then w.step5Output
  else if n = 6 then w.step6Output
  else if n = 7 then w.step7Output
  else none

/-- Static step description (`StepDefinition` in workflow.ts). -/
structure StepDefinition where
  step : Nat
  name : String
  description : String
  prerequisites : List Nat
deriving DecidableEq, Repr

/-- The fixed step table `STEP_DEFINITIONS` of workflow.ts, verbatim. -/
def STEP_DEFINITIONS : List StepDefinition :=
  [ { step := 1, name := "Download Video",
      description := "Download video from YouTube or URL",
      prerequisites := [] },
    { step := 2, name := "Extract & Transcribe",
      description := "Extract audio and transcribe via Whisper",
      prerequisites := [1] },
    { step := 3, name := "Enhance Transcript",
      description := "AI-enhance transcript and identify key frames",
      prerequisites := [2] },
    { step := 4, name := "Capture Screenshots",
      description := "Capture screenshots at key timestamps",
      prerequisites := [3] },
    { step := 5, name := "Save Transcript",
      description := "Export transcript as markdown",
      prerequisites := [3] },
    { step := 6, name := "Generate Blog",
      description := "AI-generate blog post with screenshots",
      prerequisites := [3, 4] },
    { step := 7, name := "Generate Social",
      description := "AI-generate social media posts",
      prerequisites := [3] } ]

/-- Result shape of the prerequisite checker. -/
structure CanExecuteResult where
  canExecute : Bool
  missingPrerequisites : List Nat
deriving DecidableEq, Repr

/-- `canExecuteStep` of workflow.ts: look up the step definition; missing
prerequisites are those whose status differs from `completed`. -/
def canExecuteStep (workflow : Workflow) (step : Nat) : CanExecuteResult :=
  match STEP_DEFINITIONS.find? (fun d => d.step == step) with
  | none => { canExecute := false, missingPrerequisites := [] }
  | some definition =>
    let missing := definition.prerequisites.filter
      (fun prereq => !(workflow.stepStatuses.get prereq == StepStatus.completed))
    { canExecute := missing.isEmpty, missingPrerequisites := missing }

/-- `getStepDefinition` of workflow.ts. -/
def getStepDefinition (step : Nat) : Option StepDefinition :=
  STEP_DEFINITIONS.find? (fun d => d.step == step)

deriving instance DecidableEq for Except

/-- One row of the append-only progress log (`workflow_logs`). -/
structure LogEntry where
  workflowId : String
  step : Nat
  status : String
  message : String
deriving DecidableEq, Repr

/-- The store state seen by one workflow id: the workflow record (none when
absent), the progress-log rows, a logical clock supplying `new Date()`
draws, and an instrumentation counter of workflow-record loads. -/
structure SysState where
  wf : Option Workflow
  logs : List LogEntry
  clock : Nat
  readCount : Nat
deriving DecidableEq, Repr

/-- Draw the current time and advance the clock (`new Date().toISOString()`). -/
def tick (st : SysState) : Nat × SysState :=
  (st.clock, { st with clock := st.clock + 1 })

/-- `getWorkflow`: load the workflow record; counts as one store read. -/
def getWorkflow (st : SysState) : Option Workflow × SysState :=
  (st.wf, { st with readCount := st.readCount + 1 })

/-- The partial update record accepted by `updateWorkflow`.  A `none` field
was absent from the TS `updates` object (`!== undefined` guard); for
`errorMessage` the inner option is the stored nullable value, so
`some none` writes SQL null. -/
structure Upd where
  videoPath : Option String := none
  videoName : Option String := none
  videoId : Option String := none
  status : Option WorkflowStatus := none
  currentStep : Option Nat := none
  errorMessage : Option (Option String) := none
  stepStatuses : Option StepStatuses := none
  step1Output : Option String := none
  step2Output : Option String := none
  step3Output : Option String := none
  step4Output : Option String := none
  step5Output : Option String := none
  step6Output : Option String := none
  step7Output : Option String := none
  config : Option String := none
  startedAt : Option Nat := none
  completedAt : Option Nat := none
deriving DecidableEq, Repr

/-- Overwrite a nullable column when the update carries a value. -/
def ovr (cur : Option String) (upd : Option String) : Option String :=
  match upd with
  | some v => some v
  | none => cur

/-- Apply an `Upd` to a workflow row, always refreshing `updated_at`
(the field-by-field copy inside `updateWorkflow`). -/
def applyUpd (w : Workflow) (u : Upd) (now : Nat) : Workflow :=
  { w with
    videoPath := ovr w.videoPath u.videoPath
    videoName := ovr w.videoName u.videoName
    videoId := ovr w.videoId u.videoId
    status := u.status.getD w.status
    currentStep := u.currentStep.getD w.currentStep
    errorMessage := u.errorMessage.getD w.errorMessage
    stepStatuses := u.stepStatuses.getD w.stepStatuses
    step1Output := ovr w.step1Output u.step1Output
    step2Output := ovr w.step2Output u.step2Output
    step3Output := ovr w.step3Output u.step3Output
    step4Output := ovr w.step4Output u.step4Output
    step5Output := ovr w.step5Output u.step5Output
    step6Output := ovr w.step6Output u.step6Output
    step7Output := ovr w.step7Output u.step7Output
    config := ovr w.config u.config
    startedAt := match u.startedAt with
      | some t => some t
      | none => w.startedAt
    completedAt := match u.completedAt with
      | some t => some t
      | none => w.completedAt
    updatedAt := now }

/-- `updateWorkflow`: one read-modify-write against the row; `none` means
the update failed because the row is absent (the TS code throws). -/
def updateWorkflow (st : SysState) (u : Upd) : Option Workflow × SysState :=
  let (now, st1) := tick st
  match st1.wf with
  | none => (none, st1)
  | some w =>
    let w' := applyUpd w u now
    (some w', { st1 with wf := some w' })

/-- `updateStepStatus`: load the workflow, rewrite one entry of the status
map, and set `currentStep` to the step when it just went in-progress. -/
def updateStepStatus (st : SysState) (step : Nat) (status : StepStatus) :
    Option Workflow × SysState :=
  let (ow, st1) := getWorkflow st
  match ow with
  | none => (none, st1)
  | some w =>
    updateWorkflow st1
      { stepStatuses := some (w.stepStatuses.set step status)
        currentStep := some (if status = StepStatus.in_progress then step else w.currentStep) }

/-- `logWorkflowProgress`: append-only, best-effort (never fails the caller). -/
def logWorkflowProgress (st : SysState) (workflowId : String) (step : Nat)
    (status : String) (message : String) : SysState :=
  { st with logs := st.logs ++ [{ workflowId := workflowId, step := step,
                                  status := status, message := message }] }

/-- The reset loop of `startWorkflow`:
`for (let i = fromStep; i <= 7; i++) newStepStatuses[String(i)] = 'pending'`. -/
def resetFromPending (ss : StepStatuses) (k : Nat) : StepStatuses :=
  (List.range' k (8 - k)).foldl (fun acc i => acc.set i StepStatus.pending) ss

/-- `startWorkflow`: status to `in_progress`, clear the error message, stamp
`startedAt` on first start only, and when `fromStep` is in 1..7 reset the
statuses of steps `fromStep`..7 to `pending` and point `currentStep` there. -/
def startWorkflow (st : SysState) (fromStep : Option Nat) :
    Option Workflow × SysState :=
  let (ow, st1) := getWorkflow st
  match ow with
  | none => (none, st1)
  | some w =>
    let (now, st2) := tick st1
    let u0 : Upd := { status := some WorkflowStatus.in_progress, errorMessage := some none }
    let u1 : Upd := if w.startedAt = none then { u0 with startedAt := some now } else u0
    let u2 : Upd :=
      match fromStep with
      | none => u1
      | some k =>
        if 1 ≤ k ∧ k ≤ 7 then
          { u1 with
            stepStatuses := some (resetFromPending w.stepStatuses k)
            currentStep := some k }
        else u1
    updateWorkflow st2 u2

/-- `pauseWorkflow`. -/
def pauseWorkflow (st : SysState) : Option Workflow × SysState :=
  let (ow, st1) := getWorkflow st
  match ow with
  | none => (none, st1)
  | some _ => updateWorkflow st1 { status := some WorkflowStatus.paused }

/-- `completeWorkflow`: unconditionally stamps `completedAt` with now. -/
def completeWorkflow (st : SysState) : Option Workflow × SysState :=
  let (now, st1) := tick st
  updateWorkflow st1 { status := some WorkflowStatus.completed, completedAt := some now }

/-- `failWorkflow`. -/
def failWorkflow (st : SysState) (errorMessage : String) :
    Option Workflow × SysState :=
  updateWorkflow st { status := some WorkflowStatus.error,
                      errorMessage := some (some errorMessage) }

/-- `checkStepPrerequisites`: `canExecuteStep` plus the step name. -/
def checkStepPrerequisites (workflow : Workflow) (step : Nat) :
    CanExecuteResult × String :=
  (canExecuteStep workflow step,
    match getStepDefinition step with
    | some d => d.name
    | none => "Step " ++ toString step)

/-- Single-step detail returned by `getStepStatus` of the workflow service. -/
structure StepInfo where
  step : Nat
  name : String
  status : StepStatus
  output : Option String
  canExecute : Bool
  missingPrerequisites : List Nat
deriving DecidableEq, Repr

/-- `getStepStatus` (pure): definition name, current status, stored output,
and the prerequisite check. -/
def getStepStatus (workflow : Workflow) (step : Nat) : StepInfo :=
  let prereqCheck := canExecuteStep workflow step
  { step := step
    name := match getStepDefinition step with
      | some d => d.name
      | none => "Step " ++ toString step
    status := workflow.stepStatuses.get step
    output := workflow.outputGet step
    canExecute := prereqCheck.canExecute
    missingPrerequisites := prereqCheck.missingPrerequisites }

/-- The failure kinds surfaced by the route handlers (the error taxonomy of
the spec: each corresponds to one early-return or catch branch). -/
inductive ApiError where
  | ValidationError
  | NotFound
  | InvalidStep
  | PrerequisiteError (missing : List Nat)
  | AlreadyCompleted
  | StepFailed (message : String)
  | StoreFailure
deriving DecidableEq, Repr

/-- Modelled from the spec: the row defaults applied by the database on
insert are not in src (they live in the storage schema); per the spec,
a workflow "is created in `created` status with all steps `pending`",
outputs and error message null, `startedAt`/`completedAt` null. -/
def freshWorkflow (newId : String) (videoSource : String)
    (config enhancePromptId blogPromptId socialPromptId : Option String)
    (now : Nat) : Workflow :=
  { id := newId
    videoSource := videoSource
    videoPath := none
    videoName := none
    videoId := none
    status := WorkflowStatus.created
    currentStep := 0
    errorMessage := none
    stepStatuses := { s1 := StepStatus.pending, s2 := StepStatus.pending,
                      s3 := StepStatus.pending, s4 := StepStatus.pending,
                      s5 := StepStatus.pending, s6 := StepStatus.pending,
                      s7 := StepStatus.pending }
    step1Output := none
    step2Output := none
    step3Output := none
    step4Output := none
    step5Output := none
    step6Output := none
    step7Output := none
    config := config
    enhancePromptId := enhancePromptId
    blogPromptId := blogPromptId
    socialPromptId := socialPromptId
    createdAt := now
    updatedAt := now
    startedAt := none
    completedAt := none }

/-- The POST / create route: reject a missing or empty `videoSource`
(`!videoSource || typeof videoSource !== 'string'`) before touching the
store, then insert the trimmed source with the schema defaults.
A whitespace-only string is truthy in TS, so it passes the guard and is
stored trimmed (that is, empty). -/
def createRoute (st : SysState) (videoSource : Option String)
    (config enhancePromptId blogPromptId socialPromptId : Option String)
    (newId : String) : Except ApiError Workflow × SysState :=
  match videoSource with
  | none => (Except.error ApiError.ValidationError, st)
  | some s =>
    if s = "" then (Except.error ApiError.ValidationError, st)
    else
      let (now, st1) := tick st
      let w := freshWorkflow newId s.trim config enhancePromptId blogPromptId
        socialPromptId now
      (Except.ok w, { st1 with wf := some w })

/-- The Upd writing one step-output slot (`{ [outputKey]: stepOutput }`):
the slot whose number equals `step` (if any) carries the output, every
other field is absent. -/
def outputUpd (step : Nat) (out : String) : Upd :=
  { step1Output := if step = 1 then some out else none
    step2Output := if step = 2 then some out else none
    step3Output := if step = 3 then some out else none
    step4Output := if step = 4 then some out else none
    step5Output := if step = 5 then some out else none
    step6Output := if step = 6 then some out else none
    step7Output := if step = 7 then some out else none }

/-- The Upd produced by `updateStepStatus`: the rewritten status map, and
`currentStep` pointing at the step when it just went in-progress. -/
def stepStatusUpd (w : Workflow) (step : Nat) (status : StepStatus) : Upd :=
  { stepStatuses := some (w.stepStatuses.set step status)
    currentStep := some (if status = StepStatus.in_progress then step else w.currentStep) }

/-- The catch block of the execute route: mark the step `error`, append one
`error` log entry with the failure message, and fail the workflow. -/
def execCatch (st : SysState) (workflowId : String) (step : Nat) (message : String) :
    Except ApiError (Workflow × String) × SysState :=
  let (_, st1) := updateStepStatus st step StepStatus.error
  let st2 := logWorkflowProgress st1 workflowId step "error" message
  let (_, st3) := failWorkflow st2 message
  (Except.error (ApiError.StepFailed message), st3)

/-- The POST /:id/steps/:step/execute route.  `runner` is the outcome of the
external collaborator bound to the step (the only black box).  Mirrors the
handler line by line: step-range validation, workflow load, prerequisite
check and already-completed check (both skipped under `force`), the
in-progress transition and log entry, the collaborator call, then either
the success path (persist output, mark completed, log, promote the workflow
when every step is done) or the catch path. -/
def executeStepRoute (st : SysState) (step : Nat) (force : Bool)
    (runner : Except String String) :
    Except ApiError (Workflow × String) × SysState :=
  if step < 1 ∨ 7 < step then (Except.error ApiError.InvalidStep, st)
  else
    let (ow, st1) := getWorkflow st
    match ow with
    | none => (Except.error ApiError.NotFound, st1)
    | some w =>
      let prereqCheck := canExecuteStep w step
      if prereqCheck.canExecute = false ∧ force = false then
        (Except.error (ApiError.PrerequisiteError prereqCheck.missingPrerequisites), st1)
      else if w.stepStatuses.get step = StepStatus.completed ∧ force = false then
        (Except.error ApiError.AlreadyCompleted, st1)
      else
        match updateStepStatus st1 step StepStatus.in_progress with
        | (none, st2) => (Except.error ApiError.StoreFailure, st2)
        | (some w2, st2) =>
          let st3 := logWorkflowProgress st2 w2.id step "in_progress"
            ("Starting step " ++ toString step)
          match runner with
          | Except.error message => execCatch st3 w2.id step message
          | Except.ok out =>
            match updateWorkflow st3 (outputUpd step out) with
            | (none, st4) => execCatch st4 w2.id step "Failed to update workflow"
            | (some _, st4) =>
              match updateStepStatus st4 step StepStatus.completed with
              | (none, st5) => execCatch st5 w2.id step "Workflow not found"
              | (some w5, st5) =>
                let st6 := logWorkflowProgress st5 w5.id step "completed"
                  ("Step " ++ toString step ++ " completed")
                if w5.stepStatuses.allDone then
                  match completeWorkflow st6 with
                  | (none, st7) => execCatch st7 w2.id step "Failed to update workflow"
                  | (some w7, st7) => (Except.ok (w7, out), st7)
                else (Except.ok (w5, out), st6)

/-- The GET /:id/steps/:step route.  Note the order: the workflow record is
loaded first, and only afterwards is the step number validated. -/
def getStepStatusRoute (st : SysState) (step : Nat) :
    Except ApiError StepInfo × SysState :=
  let (ow, st1) := getWorkflow st
  match ow with
  | none => (Except.error ApiError.NotFound, st1)
  | some w =>
    if step < 1 ∨ 7 < step then (Except.error ApiError.InvalidStep, st1)
    else (Except.ok (getStepStatus w step), st1)

/-- The POST /:id/start route. -/
def startRoute (st : SysState) (fromStep : Option Nat) :
    Except ApiError Workflow × SysState :=
  match startWorkflow st fromStep with
  | (none, st1) => (Except.error ApiError.NotFound, st1)
  | (some w, st1) => (Except.ok w, st1)

/-- The POST /:id/pause route. -/
def pauseRoute (st : SysState) : Except ApiError Workflow × SysState :=
  match pauseWorkflow st with
  | (none, st1) => (Except.error ApiError.NotFound, st1)
  | (some w, st1) => (Except.ok w, st1)

/-- The empty store, before any workflow has been created. -/
def initState : SysState :=
  { wf := none, logs := [], clock := 0, readCount := 0 }

/-- States reachable from the empty store through the public operations:
create, executeStep, start, pause, and the lifecycle complete/fail calls. -/
inductive Reachable : SysState → Prop where
  | init : Reachable initState
  | create (st : SysState) (vs config eid bid sid : Option String) (newId : String) :
      Reachable st → Reachable (createRoute st vs config eid bid sid newId).2
  | exec (st : SysState) (step : Nat) (force : Bool) (runner : Except String String) :
      Reachable st → Reachable (executeStepRoute st step force runner).2
  | start (st : SysState) (fromStep : Option Nat) :
      Reachable st → Reachable (startRoute st fromStep).2
  | pause (st : SysState) :
      Reachable st → Reachable (pauseRoute st).2
  | complete (st : SysState) :
      Reachable st → Reachable (completeWorkflow st).2
  | fail (st : SysState) (message : String) :
      Reachable st → Reachable (failWorkflow st message).2

/-- The fixed prerequisite graph as the specification states it:
1→{}; 2→{1}; 3→{2}; 4→{3}; 5→{3}; 6→{3,4}; 7→{3}. -/
def claimPrereqs : Nat → List Nat
  | 1 => []
  | 2 => [1]
  | 3 => [2]
  | 4 => [3]
  | 5 => [3]
  | 6 => [3, 4]
  | 7 => [3]
  | _ => []

/-- Number of log rows recorded for a given step with a given status. -/
def countLogs (logs : List LogEntry) (step : Nat) (status : String) : Nat :=
  (logs.filter (fun e => e.step == step && e.status == status)).length

/- Sample states used to witness hypothesis-bearing theorems. -/

/-- A freshly created workflow (all steps pending). -/
def wfFresh : Workflow :=
  freshWorkflow "w1" "https://example.com/a.mp4" none none none none 0

/-- A store holding `wfFresh`. -/
def stFresh : SysState :=
  { wf := some wfFresh, logs := [], clock := 1, readCount := 0 }

/-- A workflow with steps 1..6 completed and step 7 pending. -/
def wfAlmost : Workflow :=
  { wfFresh with
    stepStatuses := { s1 := StepStatus.completed, s2 := StepStatus.completed,
                      s3 := StepStatus.completed, s4 := StepStatus.completed,
                      s5 := StepStatus.completed, s6 := StepStatus.completed,
                      s7 := StepStatus.pending }
    step1Output := some "o1"
    step2Output := some "o2"
    step3Output := some "o3"
    step4Output := some "o4"
    step5Output := some "o5"
    step6Output := some "o6" }

/-- A store holding `wfAlmost`. -/
def stAlmost : SysState :=
  { wf := some wfAlmost, logs := [], clock := 10, readCount := 0 }

/-- The store after completing the last pending step of `wfAlmost`:
the workflow is promoted and `completedAt` stamped. -/
def stDone : SysState := (executeStepRoute stAlmost 7 false (Except.ok "o7")).2

/-- The store after force re-running step 7 on the completed workflow:
all steps end completed again, so the workflow is re-promoted. -/
def stRedone : SysState := (executeStepRoute stDone 7 true (Except.ok "o7b")).2

/-- The output/status invariant direction the engine maintains: in a store
state, every step of the stored workflow whose status is `completed` has a
non-null output slot. -/
def CompletedHasOutput (st : SysState) : Prop :=
  ∀ w, st.wf = some w → ∀ n, w.stepStatuses.get n = StepStatus.completed →
    w.outputGet n ≠ none

/-- Create a workflow in the empty store. -/
def cexSt1 : SysState :=
  (createRoute initState (some "https://example.com/a.mp4") none none none none "w1").2

/-- ... execute step 1 successfully: step 1 completed with output. -/
def cexSt2 : SysState := (executeStepRoute cexSt1 1 false (Except.ok "out1")).2

/-- ... restart from step 1: the status resets to pending, the output
survives. -/
def cexSt3 : SysState := (startRoute cexSt2 (some 1)).2

end Watcher

namespace Watcher

/- Helper lemmas on the status and output indexers. -/

theorem get_set (ss : StepStatuses) (m n : Nat) (v : StepStatus) :
    (ss.set m v).get n =
      if n = 1 then (if m = 1 then v else ss.s1)
      else if n = 2 then (if m = 2 then v else ss.s2)
      else if n = 3 then (if m = 3 then v else ss.s3)
      else if n = 4 then (if m = 4 then v else ss.s4)
      else if n = 5 then (if m = 5 then v else ss.s5)
      else if n = 6 then (if m = 6 then v else ss.s6)
      else if n = 7 then (if m = 7 then v else ss.s7)
      else StepStatus.pending := rfl

theorem get_set_self (ss : StepStatuses) (n : Nat) (v : StepStatus)
    (h1 : 1 ≤ n) (h7 : n ≤ 7) : (ss.set n v).get n = v := by
  rw [get_set]
  split_ifs <;> first | rfl | omega

theorem get_set_other (ss : StepStatuses) (m n : Nat) (v : StepStatus)
    (h : n ≠ m) : (ss.set m v).get n = ss.get n := by
  rw [get_set]
  unfold StepStatuses.get
  split_ifs <;> first | rfl | omega

theorem set_set_same (ss : StepStatuses) (n : Nat) (a b : StepStatus) :
    ((ss.set n a).set n b) = ss.set n b := by
  unfold StepStatuses.set
  congr 1 <;> split_ifs <;> rfl

/-- The spec's prerequisite lists are sorted. -/
theorem claimPrereqs_sorted (s : Nat) :
    List.Sorted (fun a b => a < b) (claimPrereqs s) := by
  rcases s with _ | _ | _ | _ | _ | _ | _ | _ | s <;> simp [claimPrereqs]

/-- Two workflows with identical output slots agree on every indexed read. -/
theorem outputGet_congr (w w' : Workflow)
    (e1 : w'.step1Output = w.step1Output) (e2 : w'.step2Output = w.step2Output)
    (e3 : w'.step3Output = w.step3Output) (e4 : w'.step4Output = w.step4Output)
    (e5 : w'.step5Output = w.step5Output) (e6 : w'.step6Output = w.step6Output)
    (e7 : w'.step7Output = w.step7Output) (n : Nat) :
    w'.outputGet n = w.outputGet n := by
  unfold Workflow.outputGet
  split_ifs <;> simp_all

/-- `countLogs` distributes over appending rows. -/
theorem countLogs_append (l1 l2 : List LogEntry) (step : Nat) (status : String) :
    countLogs (l1 ++ l2) step status = countLogs l1 step status + countLogs l2 step status := by
  simp [countLogs, List.filter_append]

/-- Characterization of one `updateStepStatus` call on a present workflow. -/
theorem updateStepStatus_eq (st : SysState) (w : Workflow) (step : Nat)
    (status : StepStatus) (hw : st.wf = some w) :
    updateStepStatus st step status =
      (some (applyUpd w (stepStatusUpd w step status) st.clock),
       { st with
         wf := some (applyUpd w (stepStatusUpd w step status) st.clock)
         clock := st.clock + 1
         readCount := st.readCount + 1 }) := by
  unfold updateStepStatus getWorkflow updateWorkflow tick stepStatusUpd
  simp [hw]

/-- Characterization of one `updateWorkflow` call on a present workflow. -/
theorem updateWorkflow_eq (st : SysState) (w : Workflow) (u : Upd)
    (hw : st.wf = some w) :
    updateWorkflow st u =
      (some (applyUpd w u st.clock),
       { st with wf := some (applyUpd w u st.clock), clock := st.clock + 1 }) := by
  unfold updateWorkflow tick
  simp [hw]

/-- The full effect of an execute-step request whose collaborator fails:
in-progress transition and log entry, then error transition, error log
entry, and workflow failure, three clock draws and three record loads. -/
theorem exec_error_run_eq (st : SysState) (w : Workflow) (step : Nat)
    (force : Bool) (msg : String) (hw : st.wf = some w)
    (h1 : 1 ≤ step) (h7 : step ≤ 7)
    (hpre : ¬((canExecuteStep w step).canExecute = false ∧ force = false))
    (hcomp : ¬(w.stepStatuses.get step = StepStatus.completed ∧ force = false)) :
    executeStepRoute st step force (Except.error msg) =
      (Except.error (ApiError.StepFailed msg),
       let w1 := applyUpd w (stepStatusUpd w step StepStatus.in_progress) st.clock
       let w2 := applyUpd w1 (stepStatusUpd w1 step StepStatus.error) (st.clock + 1)
       let w3 := applyUpd w2 { status := some WorkflowStatus.error,
                               errorMessage := some (some msg) } (st.clock + 2)
       { wf := some w3
         logs := st.logs ++
           [{ workflowId := w.id, step := step, status := "in_progress",
              message := "Starting step " ++ toString step },
            { workflowId := w.id, step := step, status := "error", message := msg }]
         clock := st.clock + 3
         readCount := st.readCount + 3 }) := by
  unfold executeStepRoute
  rw [if_neg (show ¬(step < 1 ∨ 7 < step) by omega)]
  simp only [getWorkflow, hw]
  rw [if_neg hpre, if_neg hcomp]
  rw [updateStepStatus_eq _ w step StepStatus.in_progress rfl]
  dsimp only
  unfold execCatch logWorkflowProgress failWorkflow
  rw [updateStepStatus_eq _ _ step StepStatus.error rfl]
  dsimp only
  unfold updateWorkflow tick
  simp
  rfl

/-- `canExecuteStep` on a defined step, in terms of the spec's graph. -/
theorem canExecuteStep_eq (w : Workflow) (s : Nat) (h1 : 1 ≤ s) (h7 : s ≤ 7) :
    canExecuteStep w s =
      { canExecute := ((claimPrereqs s).filter
          (fun p => !(w.stepStatuses.get p == StepStatus.completed))).isEmpty
        missingPrerequisites := (claimPrereqs s).filter
          (fun p => !(w.stepStatuses.get p == StepStatus.completed)) } := by
  interval_cases s <;> rfl

/-- Membership in the missing list, in terms of the spec's graph. -/
theorem canExecuteStep_missing_mem (w : Workflow) (s : Nat)
    (h1 : 1 ≤ s) (h7 : s ≤ 7) (p : Nat) :
    p ∈ (canExecuteStep w s).missingPrerequisites ↔
      p ∈ claimPrereqs s ∧ w.stepStatuses.get p ≠ StepStatus.completed := by
  rw [canExecuteStep_eq w s h1 h7]
  simp [List.mem_filter]

/-- `canExecuteStep` on an undefined step number. -/
theorem canExecuteStep_undef (w : Workflow) (s : Nat) (h : ¬(1 ≤ s ∧ s ≤ 7)) :
    canExecuteStep w s = { canExecute := false, missingPrerequisites := [] } := by
  unfold canExecuteStep
  have hnone : STEP_DEFINITIONS.find? (fun d => d.step == s) = none := by
    rw [List.find?_eq_none]
    intro d hd
    fin_cases hd <;> simp <;> omega
  rw [hnone]

/-- C1.  For every workflow and step number, the prerequisite check is
executable iff every prerequisite of the step in the fixed graph has status
`completed`; the missing list holds exactly the unsatisfied prerequisite
numbers, in strictly increasing (sorted) order; and a step number outside
1..7 yields non-executable with an empty missing list. -/
theorem canExecuteStep_correct (w : Workflow) (s : Nat) :
    (1 ≤ s ∧ s ≤ 7 →
      ((canExecuteStep w s).canExecute = true ↔
        ∀ p ∈ claimPrereqs s, w.stepStatuses.get p = StepStatus.completed)) ∧
    (1 ≤ s ∧ s ≤ 7 →
      ∀ p, p ∈ (canExecuteStep w s).missingPrerequisites ↔
        p ∈ claimPrereqs s ∧ w.stepStatuses.get p ≠ StepStatus.completed) ∧
    List.Sorted (fun a b => a < b) (canExecuteStep w s).missingPrerequisites ∧
    (¬(1 ≤ s ∧ s ≤ 7) →
      canExecuteStep w s = { canExecute := false, missingPrerequisites := [] }) := by
  by_cases hs : 1 ≤ s ∧ s ≤ 7
  · obtain ⟨h1, h7⟩ := hs
    rw [canExecuteStep_eq w s h1 h7]
    refine ⟨fun _ => ?_, fun _ p => ?_, ?_, fun hc => absurd ⟨h1, h7⟩ hc⟩
    · rw [List.isEmpty_iff, List.filter_eq_nil_iff]
      simp
    · simp [List.mem_filter]
    · exact (claimPrereqs_sorted s).filter _
  · rw [canExecuteStep_undef w s hs]
    refine ⟨fun hc => absurd hc hs, fun hc => absurd hc hs, by simp, fun _ => rfl⟩

/-- Witness for `canExecuteStep_correct` at a concrete workflow and step:
on a fresh workflow, step 2 is blocked exactly because step 1 is not
completed. -/
theorem canExecuteStep_correct_witness :
    (1 ≤ 2 ∧ 2 ≤ 7) ∧
    ((canExecuteStep wfFresh 2).canExecute = true ↔
      ∀ p ∈ claimPrereqs 2, wfFresh.stepStatuses.get p = StepStatus.completed) :=
  ⟨by decide, (canExecuteStep_correct wfFresh 2).1 (by decide)⟩

/-- The full effect of a successful execute-step request that does not end
with every step completed or skipped: in-progress transition and log entry,
output persisted, completed transition and log entry; the workflow is not
promoted. -/
theorem exec_ok_notdone_eq (st : SysState) (w : Workflow) (step : Nat)
    (force : Bool) (out : String) (hw : st.wf = some w)
    (h1 : 1 ≤ step) (h7 : step ≤ 7)
    (hpre : ¬((canExecuteStep w step).canExecute = false ∧ force = false))
    (hcomp : ¬(w.stepStatuses.get step = StepStatus.completed ∧ force = false))
    (hdone : ((w.stepStatuses.set step StepStatus.in_progress).set step
        StepStatus.completed).allDone = false) :
    executeStepRoute st step force (Except.ok out) =
      (let w1 := applyUpd w (stepStatusUpd w step StepStatus.in_progress) st.clock
       let w2 := applyUpd w1 (outputUpd step out) (st.clock + 1)
       let w3 := applyUpd w2 (stepStatusUpd w2 step StepStatus.completed) (st.clock + 2)
       (Except.ok (w3, out),
        { wf := some w3
          logs := st.logs ++
            [{ workflowId := w.id, step := step, status := "in_progress",
               message := "Starting step " ++ toString step },
             { workflowId := w.id, step := step, status := "completed",
               message := "Step " ++ toString step ++ " completed" }]
          clock := st.clock + 3
          readCount := st.readCount + 3 })) := by
  unfold executeStepRoute
  rw [if_neg (show ¬(step < 1 ∨ 7 < step) by omega)]
  simp only [getWorkflow, hw]
  rw [if_neg hpre, if_neg hcomp]
  rw [updateStepStatus_eq _ w step StepStatus.in_progress rfl]
  dsimp only
  unfold logWorkflowProgress
  rw [updateWorkflow_eq _ _ (outputUpd step out) rfl]
  dsimp only
  rw [updateStepStatus_eq _ _ step StepStatus.completed rfl]
  dsimp only
  split
  · next hcond => exact absurd hcond (ne_true_of_eq_false hdone)
  · simp
    exact ⟨rfl, rfl⟩

/-- The full effect of a successful execute-step request after which every
step is completed or skipped: as above, and the workflow is promoted to
`completed` with `completedAt` stamped from the clock. -/
theorem exec_ok_done_eq (st : SysState) (w : Workflow) (step : Nat)
    (force : Bool) (out : String) (hw : st.wf = some w)
    (h1 : 1 ≤ step) (h7 : step ≤ 7)
    (hpre : ¬((canExecuteStep w step).canExecute = false ∧ force = false))
    (hcomp : ¬(w.stepStatuses.get step = StepStatus.completed ∧ force = false))
    (hdone : ((w.stepStatuses.set step StepStatus.in_progress).set step
        StepStatus.completed).allDone = true) :
    executeStepRoute st step force (Except.ok out) =
      (let w1 := applyUpd w (stepStatusUpd w step StepStatus.in_progress) st.clock
       let w2 := applyUpd w1 (outputUpd step out) (st.clock + 1)
       let w3 := applyUpd w2 (stepStatusUpd w2 step StepStatus.completed) (st.clock + 2)
       let w4 := applyUpd w3 { status := some WorkflowStatus.completed,
                               completedAt := some (st.clock + 3) } (st.clock + 4)
       (Except.ok (w4, out),
        { wf := some w4
          logs := st.logs ++
            [{ workflowId := w.id, step := step, status := "in_progress",
               message := "Starting step " ++ toString step },
             { workflowId := w.id, step := step, status := "completed",
               message := "Step " ++ toString step ++ " completed" }]
          clock := st.clock + 5
          readCount := st.readCount + 3 })) := by
  unfold executeStepRoute
  rw [if_neg (show ¬(step < 1 ∨ 7 < step) by omega)]
  simp only [getWorkflow, hw]
  rw [if_neg hpre, if_neg hcomp]
  rw [updateStepStatus_eq _ w step StepStatus.in_progress rfl]
  dsimp only
  unfold logWorkflowProgress
  rw [updateWorkflow_eq _ _ (outputUpd step out) rfl]
  dsimp only
  rw [updateStepStatus_eq _ _ step StepStatus.completed rfl]
  dsimp only
  split
  · unfold completeWorkflow tick
    dsimp only
    rw [updateWorkflow_eq _ _ _ rfl]
    simp
    exact ⟨rfl, rfl⟩
  · next hcond => exact absurd hdone hcond

/-- C2.  With `force = true`, a step execution never fails with
`PrerequisiteError` or `AlreadyCompleted`, whatever the store state, step
number and collaborator outcome: both pre-checks are bypassed (other
failure kinds still apply). -/
theorem exec_force_bypasses_prechecks (st : SysState) (step : Nat)
    (runner : Except String String) (m : List Nat) :
    (executeStepRoute st step true runner).1 ≠ Except.error (ApiError.PrerequisiteError m) ∧
    (executeStepRoute st step true runner).1 ≠ Except.error ApiError.AlreadyCompleted := by
  unfold executeStepRoute execCatch
  refine ⟨?_, ?_⟩ <;> (repeat' split) <;> (try simp_all) <;>
    (repeat' split) <;> simp_all

/-- C3.  When an execute-step request fails because the collaborator bound
to the step throws, the step's status is set to `error`, the workflow
status becomes `error` with `errorMessage` equal to the failure message
(non-null), exactly one `error` log entry for the step is appended, and
every other step status and every step output is left exactly as of the
failure point. -/
theorem exec_failure_marks_error (st : SysState) (w : Workflow) (step : Nat)
    (force : Bool) (msg : String) (hw : st.wf = some w)
    (h1 : 1 ≤ step) (h7 : step ≤ 7)
    (hpre : ¬((canExecuteStep w step).canExecute = false ∧ force = false))
    (hcomp : ¬(w.stepStatuses.get step = StepStatus.completed ∧ force = false)) :
    (executeStepRoute st step force (Except.error msg)).1 =
        Except.error (ApiError.StepFailed msg) ∧
    (∃ w', (executeStepRoute st step force (Except.error msg)).2.wf = some w' ∧
      w'.stepStatuses.get step = StepStatus.error ∧
      w'.status = WorkflowStatus.error ∧
      w'.errorMessage = some msg ∧
      (∀ j, j ≠ step → w'.stepStatuses.get j = w.stepStatuses.get j) ∧
      (∀ j, w'.outputGet j = w.outputGet j)) ∧
    countLogs (executeStepRoute st step force (Except.error msg)).2.logs step "error" =
      countLogs st.logs step "error" + 1 := by
  rw [exec_error_run_eq st w step force msg hw h1 h7 hpre hcomp]
  dsimp only
  refine ⟨rfl, ⟨_, rfl, ?_, rfl, rfl, ?_, ?_⟩, ?_⟩
  · show ((w.stepStatuses.set step StepStatus.in_progress).set step StepStatus.error).get step
      = StepStatus.error
    rw [set_set_same]
    exact get_set_self _ _ _ h1 h7
  · intro j hj
    show ((w.stepStatuses.set step StepStatus.in_progress).set step StepStatus.error).get j
      = w.stepStatuses.get j
    rw [set_set_same]
    exact get_set_other _ _ _ _ hj
  · intro j
    exact outputGet_congr w _ rfl rfl rfl rfl rfl rfl rfl j
  · rw [countLogs_append]
    simp [countLogs, List.filter]

/-- Witness for `exec_failure_marks_error`: a fresh workflow, step 1, a
collaborator failing with message "boom". -/
theorem exec_failure_marks_error_witness :
    (stFresh.wf = some wfFresh ∧ 1 ≤ 1 ∧ 1 ≤ 7 ∧
     ¬((canExecuteStep wfFresh 1).canExecute = false ∧ false = false) ∧
     ¬(wfFresh.stepStatuses.get 1 = StepStatus.completed ∧ false = false)) ∧
    ((executeStepRoute stFresh 1 false (Except.error "boom")).1 =
        Except.error (ApiError.StepFailed "boom") ∧
     (∃ w', (executeStepRoute stFresh 1 false (Except.error "boom")).2.wf = some w' ∧
       w'.stepStatuses.get 1 = StepStatus.error ∧
       w'.status = WorkflowStatus.error ∧
       w'.errorMessage = some "boom" ∧
       (∀ j, j ≠ 1 → w'.stepStatuses.get j = wfFresh.stepStatuses.get j) ∧
       (∀ j, w'.outputGet j = wfFresh.outputGet j)) ∧
     countLogs (executeStepRoute stFresh 1 false (Except.error "boom")).2.logs 1 "error" =
       countLogs stFresh.logs 1 "error" + 1) :=
  ⟨⟨rfl, by decide, by decide, by decide, by decide⟩,
   exec_failure_marks_error stFresh wfFresh 1 false "boom" rfl (by decide) (by decide)
     (by decide) (by decide)⟩

/-- C9.  An execute-step request without `force` that is blocked by an
unsatisfied prerequisite fails with `PrerequisiteError` carrying exactly
the unsatisfied prerequisite numbers, and mutates nothing: the workflow
record, the progress log and the clock are exactly as before (only the
read instrumentation counts the single workflow load). -/
theorem exec_blocked_no_mutation (st : SysState) (w : Workflow) (step : Nat)
    (runner : Except String String) (hw : st.wf = some w)
    (h1 : 1 ≤ step) (h7 : step ≤ 7)
    (hblock : (canExecuteStep w step).canExecute = false) :
    executeStepRoute st step false runner =
      (Except.error (ApiError.PrerequisiteError (canExecuteStep w step).missingPrerequisites),
       { st with readCount := st.readCount + 1 }) ∧
    (∀ p, p ∈ (canExecuteStep w step).missingPrerequisites ↔
      p ∈ claimPrereqs step ∧ w.stepStatuses.get p ≠ StepStatus.completed) := by
  constructor
  · unfold executeStepRoute
    rw [if_neg (show ¬(step < 1 ∨ 7 < step) by omega)]
    simp only [getWorkflow, hw]
    rw [if_pos ⟨hblock, trivial⟩]
  · exact canExecuteStep_missing_mem w step h1 h7

/-- Witness for `exec_blocked_no_mutation`: executing step 2 on a fresh
workflow is blocked with missing = [1] and the state is unchanged. -/
theorem exec_blocked_no_mutation_witness :
    (stFresh.wf = some wfFresh ∧ 1 ≤ 2 ∧ 2 ≤ 7 ∧
     (canExecuteStep wfFresh 2).canExecute = false) ∧
    (executeStepRoute stFresh 2 false (Except.ok "x") =
      (Except.error (ApiError.PrerequisiteError
        (canExecuteStep wfFresh 2).missingPrerequisites),
       { stFresh with readCount := stFresh.readCount + 1 }) ∧
    (∀ p, p ∈ (canExecuteStep wfFresh 2).missingPrerequisites ↔
      p ∈ claimPrereqs 2 ∧ wfFresh.stepStatuses.get p ≠ StepStatus.completed)) :=
  ⟨⟨rfl, by decide, by decide, by decide⟩,
   exec_blocked_no_mutation stFresh wfFresh 2 (Except.ok "x") rfl (by decide)
     (by decide) (by decide)⟩

/-- C4 (amended).  A successful step execution after which every one of the
7 statuses is completed or skipped promotes the workflow to `completed` and
stamps `completedAt` with the promotion time (so a later forced
re-completion refreshes it rather than leaving it unchanged); when some
step is neither completed nor skipped after the update, the workflow status
and `completedAt` are untouched. -/
theorem exec_success_promotes (st : SysState) (w : Workflow) (step : Nat)
    (force : Bool) (out : String) (hw : st.wf = some w)
    (h1 : 1 ≤ step) (h7 : step ≤ 7)
    (hpre : ¬((canExecuteStep w step).canExecute = false ∧ force = false))
    (hcomp : ¬(w.stepStatuses.get step = StepStatus.completed ∧ force = false)) :
    (((w.stepStatuses.set step StepStatus.completed).allDone = true →
      ∃ w', (executeStepRoute st step force (Except.ok out)).1 = Except.ok (w', out) ∧
        (executeStepRoute st step force (Except.ok out)).2.wf = some w' ∧
        w'.status = WorkflowStatus.completed ∧
        w'.completedAt = some (st.clock + 3)) ∧
     ((w.stepStatuses.set step StepStatus.completed).allDone = false →
      ∃ w', (executeStepRoute st step force (Except.ok out)).1 = Except.ok (w', out) ∧
        (executeStepRoute st step force (Except.ok out)).2.wf = some w' ∧
        w'.status = w.status ∧
        w'.completedAt = w.completedAt)) := by
  constructor
  · intro hdone
    rw [exec_ok_done_eq st w step force out hw h1 h7 hpre hcomp
      (by rw [set_set_same]; exact hdone)]
    exact ⟨_, rfl, rfl, rfl, rfl⟩
  · intro hdone
    rw [exec_ok_notdone_eq st w step force out hw h1 h7 hpre hcomp
      (by rw [set_set_same]; exact hdone)]
    exact ⟨_, rfl, rfl, rfl, rfl⟩

/-- Witness for `exec_success_promotes`: completing step 7 on a workflow
whose other six steps are completed promotes it, with `completedAt`
stamped. -/
theorem exec_success_promotes_witness :
    (stAlmost.wf = some wfAlmost ∧ 1 ≤ 7 ∧ 7 ≤ 7 ∧
     ¬((canExecuteStep wfAlmost 7).canExecute = false ∧ false = false) ∧
     ¬(wfAlmost.stepStatuses.get 7 = StepStatus.completed ∧ false = false)) ∧
    (((wfAlmost.stepStatuses.set 7 StepStatus.completed).allDone = true →
      ∃ w', (executeStepRoute stAlmost 7 false (Except.ok "o7")).1 = Except.ok (w', "o7") ∧
        (executeStepRoute stAlmost 7 false (Except.ok "o7")).2.wf = some w' ∧
        w'.status = WorkflowStatus.completed ∧
        w'.completedAt = some (stAlmost.clock + 3)) ∧
     ((wfAlmost.stepStatuses.set 7 StepStatus.completed).allDone = false →
      ∃ w', (executeStepRoute stAlmost 7 false (Except.ok "o7")).1 = Except.ok (w', "o7") ∧
        (executeStepRoute stAlmost 7 false (Except.ok "o7")).2.wf = some w' ∧
        w'.status = wfAlmost.status ∧
        w'.completedAt = wfAlmost.completedAt)) :=
  ⟨⟨rfl, by decide, by decide, by decide, by decide⟩,
   exec_success_promotes stAlmost wfAlmost 7 false "o7" rfl (by decide) (by decide)
     (by decide) (by decide)⟩

theorem foldl_set_pending_not_mem (l : List Nat) (ss : StepStatuses) (i : Nat)
    (hi : i ∉ l) :
    (l.foldl (fun acc j => acc.set j StepStatus.pending) ss).get i = ss.get i := by
  induction l generalizing ss with
  | nil => rfl
  | cons a l ih =>
    rw [List.foldl_cons, ih _ (fun h => hi (List.mem_cons_of_mem a h))]
    exact get_set_other ss a i _ (fun h => hi (h ▸ List.mem_cons_self a l))

theorem foldl_set_pending_mem (l : List Nat) (ss : StepStatuses) (i : Nat)
    (hi : i ∈ l) (h1 : 1 ≤ i) (h7 : i ≤ 7) :
    (l.foldl (fun acc j => acc.set j StepStatus.pending) ss).get i = StepStatus.pending := by
  induction l generalizing ss with
  | nil => cases hi
  | cons a l ih =>
    rw [List.foldl_cons]
    by_cases hmem : i ∈ l
    · exact ih _ hmem
    · have hia : i = a := by
        rcases List.mem_cons.1 hi with h | h
        · exact h
        · exact absurd h hmem
      subst hia
      rw [foldl_set_pending_not_mem l _ i hmem]
      exact get_set_self ss i _ h1 h7

/-- The reset loop sets every in-range step from `k` on to pending. -/
theorem resetFromPending_get_ge (ss : StepStatuses) (k i : Nat)
    (hk1 : 1 ≤ k) (hki : k ≤ i) (hi7 : i ≤ 7) :
    (resetFromPending ss k).get i = StepStatus.pending := by
  apply foldl_set_pending_mem
  · rw [List.mem_range'_1]
    omega
  · omega
  · exact hi7

/-- The reset loop leaves steps below `k` untouched. -/
theorem resetFromPending_get_lt (ss : StepStatuses) (k i : Nat) (h : i < k) :
    (resetFromPending ss k).get i = ss.get i := by
  apply foldl_set_pending_not_mem
  rw [List.mem_range'_1]
  omega

/-- Characterization of `startWorkflow` with an in-range `fromStep`. -/
theorem startWorkflow_eq_some (st : SysState) (w : Workflow) (k : Nat)
    (hw : st.wf = some w) (h1 : 1 ≤ k) (h7 : k ≤ 7) :
    startWorkflow st (some k) =
      (let u : Upd :=
        { status := some WorkflowStatus.in_progress
          errorMessage := some none
          startedAt := if w.startedAt = none then some st.clock else none
          stepStatuses := some (resetFromPending w.stepStatuses k)
          currentStep := some k }
       (some (applyUpd w u (st.clock + 1)),
        { st with wf := some (applyUpd w u (st.clock + 1))
                  clock := st.clock + 2
                  readCount := st.readCount + 1 })) := by
  unfold startWorkflow getWorkflow tick
  simp only [hw]
  rw [if_pos (⟨h1, h7⟩ : 1 ≤ k ∧ k ≤ 7)]
  by_cases hsa : w.startedAt = none
  · rw [if_pos hsa, if_pos hsa]
    exact rfl
  · rw [if_neg hsa, if_neg hsa]
    exact rfl

/-- Characterization of `startWorkflow` without a `fromStep`. -/
theorem startWorkflow_eq_none (st : SysState) (w : Workflow)
    (hw : st.wf = some w) :
    startWorkflow st none =
      (let u : Upd :=
        { status := some WorkflowStatus.in_progress
          errorMessage := some none
          startedAt := if w.startedAt = none then some st.clock else none }
       (some (applyUpd w u (st.clock + 1)),
        { st with wf := some (applyUpd w u (st.clock + 1))
                  clock := st.clock + 2
                  readCount := st.readCount + 1 })) := by
  unfold startWorkflow getWorkflow tick
  simp only [hw]
  by_cases hsa : w.startedAt = none
  · rw [if_pos hsa, if_pos hsa]
    exact rfl
  · rw [if_neg hsa, if_neg hsa]
    exact rfl

/-- An out-of-range `fromStep` is ignored: same behaviour as omitting it. -/
theorem startWorkflow_eq_bad (st : SysState) (m : Nat)
    (hbad : ¬(1 ≤ m ∧ m ≤ 7)) :
    startWorkflow st (some m) = startWorkflow st none := by
  unfold startWorkflow getWorkflow tick
  cases hst : st.wf with
  | none => rfl
  | some w =>
    dsimp only
    rw [if_neg hbad]

/-- C5.  `start(id, fromStep = k)` with `k` in 1..7 sets the workflow to
`in_progress`, resets the statuses of steps `k`..7 to `pending`, leaves the
statuses of steps below `k` and every step output unchanged, sets
`currentStep` to `k`, and stamps `startedAt` only if it was not already
set. -/
theorem start_resets_suffix (st : SysState) (w : Workflow) (k : Nat)
    (hw : st.wf = some w) (h1 : 1 ≤ k) (h7 : k ≤ 7) :
    ∃ w', startRoute st (some k) =
        (Except.ok w', { st with wf := some w', clock := st.clock + 2,
                                 readCount := st.readCount + 1 }) ∧
      w'.status = WorkflowStatus.in_progress ∧
      (∀ i, k ≤ i → i ≤ 7 → w'.stepStatuses.get i = StepStatus.pending) ∧
      (∀ i, i < k → w'.stepStatuses.get i = w.stepStatuses.get i) ∧
      (∀ j, w'.outputGet j = w.outputGet j) ∧
      w'.currentStep = k ∧
      w'.startedAt = (if w.startedAt = none then some st.clock else w.startedAt) := by
  unfold startRoute
  rw [startWorkflow_eq_some st w k hw h1 h7]
  dsimp only
  refine ⟨_, rfl, rfl, ?_, ?_, ?_, rfl, ?_⟩
  · intro i hki hi7
    show (resetFromPending w.stepStatuses k).get i = StepStatus.pending
    exact resetFromPending_get_ge _ _ _ h1 hki hi7
  · intro i hik
    show (resetFromPending w.stepStatuses k).get i = w.stepStatuses.get i
    exact resetFromPending_get_lt _ _ _ hik
  · intro j
    exact outputGet_congr w _ rfl rfl rfl rfl rfl rfl rfl j
  · by_cases hsa : w.startedAt = none
    · simp [applyUpd, hsa]
    · simp [applyUpd, hsa]

/-- Witness for `start_resets_suffix`: restarting `wfAlmost` from step 3
resets steps 3..7 and keeps steps 1..2 completed. -/
theorem start_resets_suffix_witness :
    (stAlmost.wf = some wfAlmost ∧ 1 ≤ 3 ∧ 3 ≤ 7) ∧
    (∃ w', startRoute stAlmost (some 3) =
        (Except.ok w', { stAlmost with wf := some w', clock := stAlmost.clock + 2,
                                       readCount := stAlmost.readCount + 1 }) ∧
      w'.status = WorkflowStatus.in_progress ∧
      (∀ i, 3 ≤ i → i ≤ 7 → w'.stepStatuses.get i = StepStatus.pending) ∧
      (∀ i, i < 3 → w'.stepStatuses.get i = wfAlmost.stepStatuses.get i) ∧
      (∀ j, w'.outputGet j = wfAlmost.outputGet j) ∧
      w'.currentStep = 3 ∧
      w'.startedAt = (if wfAlmost.startedAt = none then some stAlmost.clock
                      else wfAlmost.startedAt)) :=
  ⟨⟨rfl, by decide, by decide⟩,
   start_resets_suffix stAlmost wfAlmost 3 rfl (by decide) (by decide)⟩

/-- C10.  Every `start` call (with or without `fromStep`) succeeds on a
present workflow, clears `errorMessage` to null and sets the status to
`in_progress`; and a `fromStep` outside 1..7 is ignored: the call behaves
exactly as if `fromStep` had been omitted (no failure, no reset). -/
theorem start_clears_error (st : SysState) (w : Workflow) (fromStep : Option Nat)
    (hw : st.wf = some w) :
    (∃ w', (startRoute st fromStep).1 = Except.ok w' ∧
       (startRoute st fromStep).2.wf = some w' ∧
       w'.errorMessage = none ∧ w'.status = WorkflowStatus.in_progress) ∧
    (∀ m, fromStep = some m → ¬(1 ≤ m ∧ m ≤ 7) →
       startRoute st fromStep = startRoute st none) := by
  constructor
  · rcases fromStep with _ | m
    · unfold startRoute
      rw [startWorkflow_eq_none st w hw]
      exact ⟨_, rfl, rfl, rfl, rfl⟩
    · by_cases hm : 1 ≤ m ∧ m ≤ 7
      · unfold startRoute
        rw [startWorkflow_eq_some st w m hw hm.1 hm.2]
        exact ⟨_, rfl, rfl, rfl, rfl⟩
      · unfold startRoute
        rw [startWorkflow_eq_bad st m hm, startWorkflow_eq_none st w hw]
        exact ⟨_, rfl, rfl, rfl, rfl⟩
  · intro m hm hbad
    subst hm
    unfold startRoute
    rw [startWorkflow_eq_bad st m hbad]

/-- Witness for `start_clears_error`: starting `wfAlmost` with the
out-of-range `fromStep = 9`. -/
theorem start_clears_error_witness :
    stAlmost.wf = some wfAlmost ∧
    ((∃ w', (startRoute stAlmost (some 9)).1 = Except.ok w' ∧
       (startRoute stAlmost (some 9)).2.wf = some w' ∧
       w'.errorMessage = none ∧ w'.status = WorkflowStatus.in_progress) ∧
     (∀ m, some 9 = some m → ¬(1 ≤ m ∧ m ≤ 7) →
       startRoute stAlmost (some 9) = startRoute stAlmost none)) :=
  ⟨rfl, start_clears_error stAlmost wfAlmost (some 9) rfl⟩

/-- Counterexample to C4 as stated: `completedAt` is not set exactly once.
Completing the pipeline stamps `completedAt`; a later forced re-run of step
7 re-promotes the workflow and overwrites `completedAt` with the new time
(`completeWorkflow` stamps unconditionally, with no first-time guard). -/
theorem completedAt_overwritten_on_recompletion :
    stDone.wf.bind (fun w => w.completedAt) = some 13 ∧
    stRedone.wf.bind (fun w => w.completedAt) = some 18 ∧
    stDone.wf.bind (fun w => w.completedAt) ≠ stRedone.wf.bind (fun w => w.completedAt) := by
  decide

/-- C7 (amended).  `create` fails with `ValidationError` exactly when
`videoSource` is absent or the empty string, before any state mutation; any
other string — a whitespace-only one included — is accepted, and the
workflow is inserted with the trimmed source. -/
theorem create_validation (st : SysState) (cfg eid bid sid : Option String) (nid : String) :
    (∀ s : Option String, (s = none ∨ s = some "") →
      createRoute st s cfg eid bid sid nid = (Except.error ApiError.ValidationError, st)) ∧
    (∀ s : String, s ≠ "" →
      createRoute st (some s) cfg eid bid sid nid =
        (Except.ok (freshWorkflow nid s.trim cfg eid bid sid st.clock),
         { st with wf := some (freshWorkflow nid s.trim cfg eid bid sid st.clock),
                   clock := st.clock + 1 })) := by
  constructor
  · rintro s (rfl | rfl) <;> rfl
  · intro s hs
    unfold createRoute tick
    dsimp only
    rw [if_neg hs]

/-- Witness for `create_validation`: the empty source is rejected with the
store untouched; a URL source is accepted and stored trimmed. -/
theorem create_validation_witness :
    createRoute initState (some "") none none none none "w1" =
      (Except.error ApiError.ValidationError, initState) ∧
    createRoute initState (some "https://example.com/a.mp4") none none none none "w1" =
      (Except.ok (freshWorkflow "w1" ("https://example.com/a.mp4").trim none none none none
         initState.clock),
       { initState with
         wf := some (freshWorkflow "w1" ("https://example.com/a.mp4").trim none none none none
           initState.clock)
         clock := initState.clock + 1 }) :=
  ⟨(create_validation initState none none none none "w1").1 (some "") (Or.inr rfl),
   (create_validation initState none none none none "w1").2 "https://example.com/a.mp4"
     (by decide)⟩

/-- Counterexample to C7 as stated: a whitespace-only `videoSource` is not
rejected.  `!videoSource` is false for a non-empty string, so " " passes
the guard and a workflow is created with the trimmed (empty) source. -/
theorem whitespace_source_accepted :
    (createRoute initState (some " ") none none none none "w1").1 ≠
      Except.error ApiError.ValidationError ∧
    (createRoute initState (some " ") none none none none "w1").2.wf =
      some (freshWorkflow "w1" (" ").trim none none none none 0) :=
  ⟨by decide, rfl⟩

/-- C8 (amended).  A step number outside 1..7 is rejected with
`InvalidStep` by both step-addressed operations, but in different places:
the execute route validates before loading anything (store entirely
untouched, read counter included), while the get-step-status route loads
the workflow record first and only then rejects the step number (one store
read happens). -/
theorem step_validation_read_order (st : SysState) (step : Nat) (force : Bool)
    (runner : Except String String) (w : Workflow)
    (hbad : step < 1 ∨ 7 < step) :
    executeStepRoute st step force runner = (Except.error ApiError.InvalidStep, st) ∧
    (st.wf = some w →
      getStepStatusRoute st step =
        (Except.error ApiError.InvalidStep, { st with readCount := st.readCount + 1 })) := by
  constructor
  · unfold executeStepRoute
    rw [if_pos hbad]
  · intro hw
    unfold getStepStatusRoute getWorkflow
    simp only [hw]
    rw [if_pos hbad]

/-- Witness for `step_validation_read_order` at step 0 on a present
workflow. -/
theorem step_validation_read_order_witness :
    ((0 : Nat) < 1 ∨ 7 < (0 : Nat)) ∧
    (executeStepRoute stFresh 0 false (Except.ok "x") =
      (Except.error ApiError.InvalidStep, stFresh) ∧
    (stFresh.wf = some wfFresh →
      getStepStatusRoute stFresh 0 =
        (Except.error ApiError.InvalidStep,
         { stFresh with readCount := stFresh.readCount + 1 }))) :=
  ⟨by decide,
   step_validation_read_order stFresh 0 false (Except.ok "x") wfFresh (by decide)⟩

/-- Counterexample to C8 as stated: the get-step-status route performs a
store read (the workflow load) before rejecting the invalid step number 0,
as the read counter shows. -/
theorem getStepStatus_reads_before_validation :
    (getStepStatusRoute stFresh 0).1 = Except.error ApiError.InvalidStep ∧
    (getStepStatusRoute stFresh 0).2.readCount = stFresh.readCount + 1 ∧
    stFresh.readCount = 0 := by
  decide

theorem get_out_of_range (ss : StepStatuses) (n : Nat) (h : ¬(1 ≤ n ∧ n ≤ 7)) :
    ss.get n = StepStatus.pending := by
  unfold StepStatuses.get
  split_ifs <;> first | omega | rfl

theorem outputGet_applyUpd (b : Workflow) (u : Upd) (now n : Nat) :
    (applyUpd b u now).outputGet n =
      if n = 1 then ovr b.step1Output u.step1Output
      else if n = 2 then ovr b.step2Output u.step2Output
      else if n = 3 then ovr b.step3Output u.step3Output
      else if n = 4 then ovr b.step4Output u.step4Output
      else if n = 5 then ovr b.step5Output u.step5Output
      else if n = 6 then ovr b.step6Output u.step6Output
      else if n = 7 then ovr b.step7Output u.step7Output
      else none := rfl

theorem outputGet_applyUpd_outputUpd (b : Workflow) (step n : Nat) (out : String)
    (now : Nat) :
    (applyUpd b (outputUpd step out) now).outputGet n =
      if n = step ∧ 1 ≤ step ∧ step ≤ 7 then some out else b.outputGet n := by
  rw [outputGet_applyUpd]
  dsimp only [outputUpd]
  unfold Workflow.outputGet ovr
  split_ifs <;> first | rfl | omega

theorem inv_create (st : SysState) (vs cfg eid bid sid : Option String) (nid : String)
    (ih : CompletedHasOutput st) :
    CompletedHasOutput (createRoute st vs cfg eid bid sid nid).2 := by
  unfold createRoute tick
  rcases vs with _ | s
  · exact ih
  · dsimp only
    by_cases hs : s = ""
    · rw [if_pos hs]
      exact ih
    · rw [if_neg hs]
      intro w hw n hcomp
      dsimp only at hw
      injection hw with hw'
      subst hw'
      exfalso
      revert hcomp
      unfold freshWorkflow StepStatuses.get
      dsimp only
      split_ifs <;> simp

theorem inv_pauseWorkflow (st : SysState) (ih : CompletedHasOutput st) :
    CompletedHasOutput (pauseWorkflow st).2 := by
  unfold pauseWorkflow getWorkflow updateWorkflow tick
  cases hst : st.wf with
  | none => exact fun w hw => nomatch hw
  | some w =>
    dsimp only
    intro w' hw' n hcomp
    injection hw' with hw''
    subst hw''
    exact ih w hst n hcomp

theorem inv_pause (st : SysState) (ih : CompletedHasOutput st) :
    CompletedHasOutput (pauseRoute st).2 := by
  have h0 := inv_pauseWorkflow st ih
  unfold pauseRoute
  rcases hp : pauseWorkflow st with ⟨ow, st1⟩
  rw [hp] at h0
  cases ow <;> exact h0

theorem inv_complete (st : SysState) (ih : CompletedHasOutput st) :
    CompletedHasOutput (completeWorkflow st).2 := by
  unfold completeWorkflow updateWorkflow tick
  cases hst : st.wf with
  | none => exact fun w hw => nomatch hw
  | some w =>
    dsimp only
    intro w' hw' n hcomp
    injection hw' with hw''
    subst hw''
    exact ih w hst n hcomp

theorem inv_fail (st : SysState) (msg : String) (ih : CompletedHasOutput st) :
    CompletedHasOutput (failWorkflow st msg).2 := by
  unfold failWorkflow updateWorkflow tick
  cases hst : st.wf with
  | none => exact fun w hw => nomatch hw
  | some w =>
    dsimp only
    intro w' hw' n hcomp
    injection hw' with hw''
    subst hw''
    exact ih w hst n hcomp

theorem inv_start (st : SysState) (fromStep : Option Nat)
    (ih : CompletedHasOutput st) :
    CompletedHasOutput (startRoute st fromStep).2 := by
  cases hst : st.wf with
  | none =>
    unfold startRoute startWorkflow getWorkflow
    simp only [hst]
    exact fun w hw => nomatch hw
  | some w =>
    have hplain : CompletedHasOutput (startRoute st none).2 := by
      unfold startRoute
      rw [startWorkflow_eq_none st w hst]
      dsimp only
      intro w' hw' n hcomp
      injection hw' with hw''
      subst hw''
      exact ih w hst n hcomp
    rcases fromStep with _ | m
    · exact hplain
    · by_cases hm : 1 ≤ m ∧ m ≤ 7
      · unfold startRoute
        rw [startWorkflow_eq_some st w m hst hm.1 hm.2]
        dsimp only
        intro w' hw' n hcomp
        injection hw' with hw''
        subst hw''
        have hc2 : (resetFromPending w.stepStatuses m).get n = StepStatus.completed := hcomp
        by_cases hn : m ≤ n ∧ n ≤ 7
        · rw [resetFromPending_get_ge w.stepStatuses m n hm.1 hn.1 hn.2] at hc2
          cases hc2
        · by_cases hlt : n < m
          · rw [resetFromPending_get_lt w.stepStatuses m n hlt] at hc2
            exact ih w hst n hc2
          · rw [get_out_of_range _ n (by omega)] at hc2
            cases hc2
      · unfold startRoute
        rw [startWorkflow_eq_bad st m hm]
        have : (startRoute st none).2 = (match startWorkflow st none with
          | (none, st1) => (Except.error ApiError.NotFound, st1)
          | (some w, st1) => (Except.ok w, st1)).2 := rfl
        rw [← this] at *
        exact hplain

set_option maxHeartbeats 1000000 in
theorem inv_exec (st : SysState) (step : Nat) (force : Bool)
    (runner : Except String String) (ih : CompletedHasOutput st) :
    CompletedHasOutput (executeStepRoute st step force runner).2 := by
  by_cases hrange : step < 1 ∨ 7 < step
  · unfold executeStepRoute
    rw [if_pos hrange]
    exact ih
  · have h1 : 1 ≤ step := by omega
    have h7 : step ≤ 7 := by omega
    cases hst : st.wf with
    | none =>
      unfold executeStepRoute
      rw [if_neg hrange]
      simp only [getWorkflow, hst]
      exact fun w hw => nomatch hw
    | some w =>
      by_cases hpre : (canExecuteStep w step).canExecute = false ∧ force = false
      · unfold executeStepRoute
        rw [if_neg hrange]
        simp only [getWorkflow, hst]
        rw [if_pos hpre]
        intro w' hw' n hc
        injection hw' with hw''
        subst hw''
        exact ih w hst n hc
      · by_cases hcomp : w.stepStatuses.get step = StepStatus.completed ∧ force = false
        · unfold executeStepRoute
          rw [if_neg hrange]
          simp only [getWorkflow, hst]
          rw [if_neg hpre, if_pos hcomp]
          intro w' hw' n hc
          injection hw' with hw''
          subst hw''
          exact ih w hst n hc
        · cases runner with
          | error msg =>
            rw [exec_error_run_eq st w step force msg hst h1 h7 hpre hcomp]
            dsimp only
            intro w' hw' n hc
            injection hw' with hw''
            subst hw''
            have hc2 : ((w.stepStatuses.set step StepStatus.in_progress).set step
                StepStatus.error).get n = StepStatus.completed := hc
            rw [set_set_same] at hc2
            by_cases hn : n = step
            · subst hn
              rw [get_set_self _ _ _ h1 h7] at hc2
              cases hc2
            · rw [get_set_other _ _ _ _ hn] at hc2
              exact ih w hst n hc2
          | ok out =>
            cases hdone : ((w.stepStatuses.set step StepStatus.in_progress).set step
                StepStatus.completed).allDone with
            | true =>
              rw [exec_ok_done_eq st w step force out hst h1 h7 hpre hcomp hdone]
              dsimp only
              intro w' hw' n hc
              injection hw' with hw''
              subst hw''
              have hc2 : ((w.stepStatuses.set step StepStatus.in_progress).set step
                  StepStatus.completed).get n = StepStatus.completed := hc
              rw [set_set_same] at hc2
              show (applyUpd (applyUpd w (stepStatusUpd w step StepStatus.in_progress)
                  st.clock) (outputUpd step out) (st.clock + 1)).outputGet n ≠ none
              rw [outputGet_applyUpd_outputUpd]
              by_cases hn : n = step
              · rw [if_pos ⟨hn, h1, h7⟩]
                simp
              · rw [if_neg (fun hx => hn hx.1)]
                rw [get_set_other _ _ _ _ hn] at hc2
                exact ih w hst n hc2
            | false =>
              rw [exec_ok_notdone_eq st w step force out hst h1 h7 hpre hcomp hdone]
              dsimp only
              intro w' hw' n hc
              injection hw' with hw''
              subst hw''
              have hc2 : ((w.stepStatuses.set step StepStatus.in_progress).set step
                  StepStatus.completed).get n = StepStatus.completed := hc
              rw [set_set_same] at hc2
              show (applyUpd (applyUpd w (stepStatusUpd w step StepStatus.in_progress)
                  st.clock) (outputUpd step out) (st.clock + 1)).outputGet n ≠ none
              rw [outputGet_applyUpd_outputUpd]
              by_cases hn : n = step
              · rw [if_pos ⟨hn, h1, h7⟩]
                simp
              · rw [if_neg (fun hx => hn hx.1)]
                rw [get_set_other _ _ _ _ hn] at hc2
                exact ih w hst n hc2

/-- C6 (amended).  In every store state reachable through the public
operations, each step whose status is `completed` has a non-null output
slot; the converse of the claimed invariant fails, since `start(fromStep)`
resets statuses while preserving outputs. -/
theorem reachable_completed_has_output : ∀ st, Reachable st → CompletedHasOutput st := by
  intro st h
  induction h with
  | init => exact fun w hw => nomatch hw
  | create st vs cfg eid bid sid nid _ ih => exact inv_create st vs cfg eid bid sid nid ih
  | exec st step force runner _ ih => exact inv_exec st step force runner ih
  | start st fromStep _ ih => exact inv_start st fromStep ih
  | pause st _ ih => exact inv_pause st ih
  | complete st _ ih => exact inv_complete st ih
  | fail st msg _ ih => exact inv_fail st msg ih

/-- Witness for `reachable_completed_has_output` at the concrete reachable
state with step 1 completed. -/
theorem reachable_completed_has_output_witness :
    Reachable cexSt2 ∧ CompletedHasOutput cexSt2 :=
  ⟨Reachable.exec cexSt1 1 false (Except.ok "out1")
     (Reachable.create initState (some "https://example.com/a.mp4") none none none none "w1"
       Reachable.init),
   reachable_completed_has_output cexSt2
     (Reachable.exec cexSt1 1 false (Except.ok "out1")
       (Reachable.create initState (some "https://example.com/a.mp4") none none none none "w1"
         Reachable.init))⟩

/-- Counterexample to C6 as stated: a reachable state (create, execute step
1 successfully, then start from step 1) whose workflow has a non-null
`step1Output` while step 1's status is `pending`, not `completed`. -/
theorem output_nonnull_with_pending_status :
    Reachable cexSt3 ∧
    cexSt3.wf.bind (fun w => w.step1Output) = some "out1" ∧
    cexSt3.wf.map (fun w => w.stepStatuses.get 1) = some StepStatus.pending := by
  refine ⟨?_, by decide, by decide⟩
  exact Reachable.start cexSt2 (some 1)
    (Reachable.exec cexSt1 1 false (Except.ok "out1")
      (Reachable.create initState (some "https://example.com/a.mp4") none none none none "w1"
        Reachable.init))

end Watcher
